import Mathlib

/-!
Verification of the photo_client_messenger server against its natural-language
specification.  The definitions below are a shallow embedding of the relevant
parts of the TypeScript source:

* `server/db.ts`      — schema, usage ledger, password-reset and telegram link
                        token queries, cascade deletes;
* `server/limits.ts`  — plan table and limit-check middleware;
* `server/index.ts`   — the client / AI routes that compose the middleware
                        with the database operations;
* `server/telegram.ts` (multi-user revision) — the chat bridge:
                        `findOrCreateClient` and the `/start <token>` handler;
* `server/auth.ts`    — the forgot-password endpoint.

Modelling conventions:

* Instants are minutes since the Unix epoch (`Nat`).  The source stores
  millisecond instants and ISO strings; every comparison in the source is a
  plain order comparison, so any order-isomorphic time scale is faithful.
  A fifteen-minute expiry window is the literal `15` here
  (`15 * 60 * 1000` ms in the source), one hour is `60`.
* The host timezone is a parameter `off : Int`, the number of minutes that
  must be added to UTC to obtain local civil time (JS: `-getTimezoneOffset()`).
  JS `Date` accessors such as `getFullYear` / `getMonth` read local civil
  time; `toISOString` reads UTC.
* SQLite tables are Lean lists of rows; `AUTOINCREMENT` ids are `maxId + 1`
  (id reuse after deletion is immaterial to every claim below).
* JS `Infinity` ceilings are `Option Nat` with `none` for unlimited.
* Human-readable message strings that no claim inspects are elided from the
  `LimitError` record and noted where they are dropped.
-/

namespace PhotoMsg

/-! ## Civil calendar arithmetic

`server/db.ts` derives the usage month key and the reset instant from a JS
`Date`.  We implement the standard days-to-civil-date conversion (era-based,
proleptic Gregorian).  All instants of interest are after 1970, so the
computation stays in `Nat` and every truncated subtraction below is exact. -/

structure CivilDate where
  year : Nat
  month : Nat
  day : Nat
deriving DecidableEq

/-- Convert a count of days since 1970-01-01 to a Gregorian civil date. -/
def civilFromDays (z : Nat) : CivilDate :=
  let z2 := z + 719468
  let era := z2 / 146097
  let doe := z2 % 146097
  let yoe := (doe - doe / 1460 + doe / 36524 - doe / 146096) / 365
  let y := yoe + era * 400
  let doy := doe - (365 * yoe + yoe / 4 - yoe / 100)
  let mp := (5 * doy + 2) / 153
  let d := doy - (153 * mp + 2) / 5 + 1
  let m := if mp < 10 then mp + 3 else mp - 9
  { year := if m ≤ 2 then y + 1 else y, month := m, day := d }

/-- Convert a Gregorian civil date (year ≥ 1970 intended) to days since
1970-01-01. -/
def daysFromCivil (y m d : Nat) : Nat :=
  let y2 := if m ≤ 2 then y - 1 else y
  let era := y2 / 400
  let yoe := y2 % 400
  let mp := if m > 2 then m - 3 else m + 9
  let doy := (153 * mp + 2) / 5 + d - 1
  let doe := yoe * 365 + yoe / 4 - yoe / 100 + doy
  era * 146097 + doe - 719468

/-- JS `String(n).padStart(2, "0")` for the month number. -/
def pad2 (n : Nat) : String := if n < 10 then "0" ++ toString n else toString n

/-- The `${year}-${month}` usage key format of `getCurrentMonth`
(`server/db.ts:275-278`). -/
def monthKeyOf (c : CivilDate) : String := toString c.year ++ "-" ++ pad2 c.month

/-- Local civil minutes of the instant `t` under timezone offset `off`
(minutes east of UTC).  Only meaningful when `t + off ≥ 0`, which holds for
every instant considered here. -/
def localMinutes (t : Nat) (off : Int) : Nat := ((t : Int) + off).toNat

/-- `getCurrentMonth` (`server/db.ts:275-278`):
`${now.getFullYear()}-${String(now.getMonth() + 1).padStart(2, "0")}`.
`getFullYear` and `getMonth` read the host-local civil date of the current
instant. -/
def getCurrentMonth (t : Nat) (off : Int) : String :=
  monthKeyOf (civilFromDays (localMinutes t off / 1440))

/-- First month after the given civil month (JS `new Date(y, m + 1, 1)`
normalises month index 12 into January of the next year). -/
def nextMonthOf (c : CivilDate) : Nat × Nat :=
  if c.month = 12 then (c.year + 1, 1) else (c.year, c.month + 1)

/-- `getNextMonthStart` (`server/db.ts:280-284`):
`new Date(now.getFullYear(), now.getMonth() + 1, 1).toISOString()`.
The constructed `Date` is local midnight on the first of the next local
month; `toISOString` serialises the corresponding UTC instant.  ISO
serialisation of an instant is injective, so we model the result as the
instant itself (minutes since epoch, as an `Int`). -/
def getNextMonthStart (t : Nat) (off : Int) : Int :=
  let c := civilFromDays (localMinutes t off / 1440)
  let n := nextMonthOf c
  (daysFromCivil n.1 n.2 1 : Int) * 1440 - off

/-- Modelled from the spec: the claimed reading of `getCurrentMonth` — the
UTC year-month string of the instant, independent of the host timezone. -/
def getCurrentMonthUTCspec (t : Nat) : String :=
  monthKeyOf (civilFromDays (t / 1440))

/-- Modelled from the spec: the claimed reading of `getNextMonthStart` — the
first instant of the next calendar month in UTC. -/
def getNextMonthStartUTCspec (t : Nat) : Int :=
  let c := civilFromDays (t / 1440)
  let n := nextMonthOf c
  (daysFromCivil n.1 n.2 1 : Int) * 1440

/-! ## Data model (`server/db.ts` schema, `server/types.ts`)

One list per table.  `created_at` / `timestamp` columns are not read by any
code a claim depends on and are omitted. -/

deriving instance DecidableEq for Except

/-- JS `String.prototype.toLowerCase()` (ASCII-faithful). -/
def strLower (s : String) : String := String.mk (s.data.map Char.toLower)

/-- JS `String.prototype.trim()`: strip leading and trailing whitespace. -/
def strTrim (s : String) : String :=
  String.mk (((s.data.dropWhile Char.isWhitespace).reverse.dropWhile
    Char.isWhitespace).reverse)

inductive Plan where
  | free
  | paid
  | power
deriving DecidableEq

def Plan.str : Plan → String
  | .free => "free"
  | .paid => "paid"
  | .power => "power"

structure UserRow where
  id : Nat
  email : String
  password_hash : String
  name : String
  specialty : String
  notes : String
  tone : String
  plan : Plan
  telegram_chat_id : Option Int
  telegram_username : Option String
deriving DecidableEq

structure SavedResponseRow where
  id : Nat
  user_id : Nat
  trigger : String
  title : String
  text : String
deriving DecidableEq

structure ClientRow where
  id : Nat
  user_id : Nat
  name : String
  notes : String
deriving DecidableEq

inductive Sender where
  | client
  | me
deriving DecidableEq

structure MessageRow where
  id : Nat
  client_id : Nat
  sender : Sender
  text : String
deriving DecidableEq

structure UsageRow where
  user_id : Nat
  month : String
  ai_respond_count : Nat
  ai_improve_count : Nat
  transcribe_count : Nat
deriving DecidableEq

/-- Row shape shared by `password_reset_tokens` and `telegram_link_tokens`
(identical columns in the schema).  `used` is the SQLite INTEGER flag,
`expires_at` the stored expiry instant. -/
structure TokenRow where
  id : Nat
  user_id : Nat
  token : String
  expires_at : Nat
  used : Nat
deriving DecidableEq

structure Db where
  users : List UserRow
  saved_responses : List SavedResponseRow
  clients : List ClientRow
  messages : List MessageRow
  usage : List UsageRow
  password_reset_tokens : List TokenRow
  telegram_link_tokens : List TokenRow
deriving DecidableEq

def emptyDb : Db :=
  { users := [], saved_responses := [], clients := [], messages := [],
    usage := [], password_reset_tokens := [], telegram_link_tokens := [] }

/-- A user row with the signup defaults (`server/auth.ts:186-195`). -/
def mkUser (id : Nat) (email : String) (plan : Plan) : UserRow :=
  { id := id, email := email, password_hash := "", name := "", specialty := "",
    notes := "", tone := "friendly and casual", plan := plan,
    telegram_chat_id := none, telegram_username := none }

/-! ## db.ts query objects -/

/-- `users.findById` (`server/db.ts:111-113`). -/
def usersFindById (db : Db) (id : Nat) : Option UserRow :=
  db.users.find? (fun u => u.id == id)

/-- `users.findByEmail` (`server/db.ts:115-117`). -/
def usersFindByEmail (db : Db) (email : String) : Option UserRow :=
  db.users.find? (fun u => u.email == email)

/-- `users.setTelegramChat` (migration plan `2026-02-18`, Task 1 step 2):
`UPDATE users SET telegram_chat_id = ?, telegram_username = ? WHERE id = ?`. -/
def usersSetTelegramChat (db : Db) (id : Nat) (chatId : Int) (username : String) : Db :=
  { db with users := db.users.map (fun u =>
      if u.id == id then
        { u with telegram_chat_id := some chatId, telegram_username := some username }
      else u) }

/-- `clients.findByUser` (`server/db.ts:214-216`), ordered by id as stored. -/
def clientsFindByUser (db : Db) (uid : Nat) : List ClientRow :=
  db.clients.filter (fun c => c.user_id == uid)

/-- `clients.findById` (`server/db.ts:218-220`). -/
def clientsFindById (db : Db) (id : Nat) : Option ClientRow :=
  db.clients.find? (fun c => c.id == id)

/-- `clients.countByUser` (`server/db.ts:239-241`):
`SELECT COUNT(*) FROM clients WHERE user_id = ?`. -/
def countByUser (db : Db) (uid : Nat) : Nat :=
  (clientsFindByUser db uid).length

/-- Next AUTOINCREMENT id for the clients table. -/
def nextClientId (db : Db) : Nat :=
  (db.clients.map (fun c => c.id)).foldr max 0 + 1

/-- `clients.create` (`server/db.ts:226-229`). -/
def clientsCreate (db : Db) (uid : Nat) (name notes : String) : Nat × Db :=
  let id := nextClientId db
  (id, { db with clients := db.clients ++ [⟨id, uid, name, notes⟩] })

/-- Next AUTOINCREMENT id for the messages table. -/
def nextMessageId (db : Db) : Nat :=
  (db.messages.map (fun m => m.id)).foldr max 0 + 1

/-- `messages.create` (`server/db.ts:263-266`). -/
def messagesCreate (db : Db) (clientId : Nat) (sender : Sender) (text : String) : Db :=
  { db with messages := db.messages ++ [⟨nextMessageId db, clientId, sender, text⟩] }

/-! ### Usage ledger (`server/db.ts:273-335`) -/

/-- The `WHERE user_id = ? AND month = ?` row filter of the usage queries. -/
def usagePred (uid : Nat) (m : String) (r : UsageRow) : Bool :=
  r.user_id == uid && r.month == m

/-- `SELECT * FROM usage WHERE user_id = ? AND month = ?`. -/
def usageFindRow (db : Db) (uid : Nat) (m : String) : Option UsageRow :=
  db.usage.find? (usagePred uid m)

/-- `upsertUsage` (`server/db.ts:290-294`): insert a zero row,
`ON CONFLICT(user_id, month) DO NOTHING`. -/
def upsertUsage (db : Db) (uid : Nat) (m : String) : Db :=
  match usageFindRow db uid m with
  | some _ => db
  | none => { db with usage := db.usage ++ [⟨uid, m, 0, 0, 0⟩] }

/-- `usage.get` (`server/db.ts:312-316`): key by the current month, upsert,
then read the row.  The source asserts the row exists with `!`; after the
upsert it always does, and the default is never reached. -/
def usageGet (db : Db) (uid : Nat) (t : Nat) (off : Int) : UsageRow × Db :=
  let m := getCurrentMonth t off
  let db2 := upsertUsage db uid m
  ((usageFindRow db2 uid m).getD ⟨uid, m, 0, 0, 0⟩, db2)

/-- `usage.incrementAiRespond` (`server/db.ts:318-322`): recompute the current
month at call time, upsert, then
`UPDATE usage SET ai_respond_count = ai_respond_count + 1 WHERE user_id = ? AND month = ?`. -/
def incrementAiRespond (db : Db) (uid : Nat) (t : Nat) (off : Int) : Db :=
  let m := getCurrentMonth t off
  let db2 := upsertUsage db uid m
  { db2 with usage := db2.usage.map (fun r =>
      if usagePred uid m r then
        { r with ai_respond_count := r.ai_respond_count + 1 }
      else r) }

/-- Count read off the (uid, month) usage row, 0 when the row is absent. -/
def aiRespondCountOf (db : Db) (uid : Nat) (m : String) : Nat :=
  ((usageFindRow db uid m).map (fun r => r.ai_respond_count)).getD 0

/-! ### Token tables (`server/db.ts:337-382` and the telegram revision)

`telegramLinkTokens` is not in the pre-telegram `server/db.ts` under `src/`;
its implementation is taken verbatim from the committed migration plan
(`docs/plans/2026-02-18-telegram-multiuser.md`, Task 1 step 3), which the
current `server/telegram.ts` (the `/start` handler) imports and calls.  It is
structurally identical to `passwordResetTokens`. -/

/-- Next AUTOINCREMENT id for a token table. -/
def nextTokenId (rows : List TokenRow) : Nat :=
  (rows.map (fun r => r.id)).foldr max 0 + 1

/-- `DELETE FROM telegram_link_tokens WHERE expires_at < datetime(now) OR used = 1`
— opportunistic garbage collection run on each `create`. -/
def gcTokens (rows : List TokenRow) (now : Nat) : List TokenRow :=
  rows.filter (fun r => !(r.expires_at < now || r.used == 1))

/-- `telegramLinkTokens.create`: garbage-collect, then insert with the given
expiry.  The caller (`POST /api/telegram/connect`) passes
`new Date(Date.now() + 15 * 60 * 1000)`, i.e. `now + 15` minutes. -/
def tltCreate (db : Db) (uid : Nat) (tok : String) (expiresAt now : Nat) : Db :=
  let rows := gcTokens db.telegram_link_tokens now
  { db with telegram_link_tokens :=
      rows ++ [⟨nextTokenId rows, uid, tok, expiresAt, 0⟩] }

/-- The `WHERE token = ? AND used = 0` row filter of `findByToken`. -/
def tokenPred (tok : String) (r : TokenRow) : Bool :=
  r.token == tok && r.used == 0

/-- `telegramLinkTokens.findByToken`:
`SELECT * FROM telegram_link_tokens WHERE token = ? AND used = 0`, then
`if (result && new Date(result.expires_at) < new Date()) return undefined`. -/
def tltFindByToken (db : Db) (tok : String) (now : Nat) : Option TokenRow :=
  match db.telegram_link_tokens.find? (tokenPred tok) with
  | none => none
  | some r => if r.expires_at < now then none else some r

/-- `telegramLinkTokens.markUsed`:
`UPDATE telegram_link_tokens SET used = 1 WHERE token = ?`. -/
def tltMarkUsed (db : Db) (tok : String) : Db :=
  { db with telegram_link_tokens := db.telegram_link_tokens.map (fun r =>
      if r.token == tok then { r with used := 1 } else r) }

/-- `passwordResetTokens.create` (`server/db.ts:365-369`): garbage-collect,
then insert.  `POST /api/auth/forgot-password` passes a one-hour expiry. -/
def prtCreate (db : Db) (uid : Nat) (tok : String) (expiresAt now : Nat) : Db :=
  let rows := gcTokens db.password_reset_tokens now
  { db with password_reset_tokens :=
      rows ++ [⟨nextTokenId rows, uid, tok, expiresAt, 0⟩] }

/-! ### Cascade deletion (`server/db.ts:16-80`)

Every owned table references `users(id) ON DELETE CASCADE`; `messages`
references `clients(id) ON DELETE CASCADE`, and `foreign_keys = ON` is set.
Deleting a user row therefore removes its saved responses, clients, usage
rows, both kinds of tokens, and — through the deleted clients — their
messages. -/

def deleteUserCascade (db : Db) (uid : Nat) : Db :=
  let gone := db.clients.filter (fun c => c.user_id == uid)
  { users := db.users.filter (fun u => u.id != uid)
    saved_responses := db.saved_responses.filter (fun s => s.user_id != uid)
    clients := db.clients.filter (fun c => c.user_id != uid)
    messages := db.messages.filter (fun m => !(gone.any (fun c => c.id == m.client_id)))
    usage := db.usage.filter (fun r => r.user_id != uid)
    password_reset_tokens := db.password_reset_tokens.filter (fun r => r.user_id != uid)
    telegram_link_tokens := db.telegram_link_tokens.filter (fun r => r.user_id != uid) }

/-! ## Plan table and limit middleware (`server/limits.ts`) -/

/-- Ceiling values of one plan tier.  `none` is the JS `Infinity` of the
`power` tier (`server/limits.ts:20-26`); every comparison against it is
false, so the middleware forwards unconditionally. -/
structure PlanLimitVals where
  clients : Option Nat
  messagesPerClient : Option Nat
  aiRespond : Option Nat
  aiImprove : Option Nat
  transcribe : Option Nat
deriving DecidableEq

/-- `PLAN_LIMITS` (`server/limits.ts:5-27`). -/
def PLAN_LIMITS : Plan → PlanLimitVals
  | .free => ⟨some 5, some 50, some 20, some 30, some 10⟩
  | .paid => ⟨some 25, some 250, some 200, some 300, some 100⟩
  | .power => ⟨none, none, none, none, none⟩

inductive AIOp where
  | aiRespond
  | aiImprove
  | transcribe
deriving DecidableEq

/-- Field selection `limits[type]` in `checkAILimit` (`server/limits.ts:105`). -/
def aiLimitOf (p : PlanLimitVals) : AIOp → Option Nat
  | .aiRespond => p.aiRespond
  | .aiImprove => p.aiImprove
  | .transcribe => p.transcribe

/-- The `countKey` selection of `checkAILimit` (`server/limits.ts:112-115`). -/
def usageCountOf (u : UsageRow) : AIOp → Nat
  | .aiRespond => u.ai_respond_count
  | .aiImprove => u.ai_improve_count
  | .transcribe => u.transcribe_count

inductive LimitType where
  | clients
  | messagesPerClient
  | aiRespond
  | aiImprove
  | transcribe
deriving DecidableEq

def LimitType.ofAIOp : AIOp → LimitType
  | .aiRespond => .aiRespond
  | .aiImprove => .aiImprove
  | .transcribe => .transcribe

/-- The structured `limit_exceeded` body built by `limitError`
(`server/limits.ts:29-43`).  The constant discriminator
`error: "limit_exceeded"` and the free-text `message` field, which no claim
inspects, are elided. -/
structure LimitErrorBody where
  limitType : LimitType
  current : Nat
  limit : Nat
  resetDate : Int
deriving DecidableEq

/-- `limitError` (`server/limits.ts:29-43`): `resetDate` comes from
`usage.getNextMonthStart()` at call time. -/
def limitError (lt : LimitType) (current limit : Nat) (t : Nat) (off : Int) : LimitErrorBody :=
  { limitType := lt, current := current, limit := limit,
    resetDate := getNextMonthStart t off }

/-- Outcome of an Express limit middleware: either control passes to the
route handler (`next()`), or the middleware itself ends the request with
`res.status(status).json(err)` and the handler never runs.  The database
threads through because `usage.get` upserts. -/
inductive MwResult where
  | next (db : Db)
  | denied (status : Nat) (err : LimitErrorBody) (db : Db)
deriving DecidableEq

/-- `checkClientLimit` (`server/limits.ts:46-67`). -/
def checkClientLimit (user : UserRow) (db : Db) (t : Nat) (off : Int) : MwResult :=
  match (PLAN_LIMITS user.plan).clients with
  | none => .next db
  | some lim =>
    let currentCount := countByUser db user.id
    if currentCount ≥ lim then
      .denied 429 (limitError .clients currentCount lim t off) db
    else .next db

/-- `checkAILimit` (`server/limits.ts:101-135`). -/
def checkAILimit (ty : AIOp) (user : UserRow) (db : Db) (t : Nat) (off : Int) : MwResult :=
  match aiLimitOf (PLAN_LIMITS user.plan) ty with
  | none => .next db
  | some lim =>
    let g := usageGet db user.id t off
    let current := usageCountOf g.1 ty
    if current ≥ lim then
      .denied 429 (limitError (LimitType.ofAIOp ty) current lim t off) g.2
    else .next g.2

/-! ## HTTP routes (`server/index.ts`) -/

/-- Response of the client-creation route, as far as the claims observe it. -/
inductive PostClientsResult where
  | created (id : Nat)
  | limited (err : LimitErrorBody)
deriving DecidableEq

/-- `POST /api/clients` (`server/index.ts:144-156`): `checkClientLimit`
middleware, then `clients.create(user.id, name, notes)` with no name
uniqueness check of any kind. -/
def postClients (user : UserRow) (name notes : String) (db : Db) (t : Nat) (off : Int) :
    PostClientsResult × Db :=
  match checkClientLimit user db t off with
  | .denied _ e db2 => (.limited e, db2)
  | .next db2 =>
    let r := clientsCreate db2 user.id name notes
    (.created r.1, r.2)

/-- Observable outcome of `POST /api/ai/respond` for the usage ledger. -/
inductive AiReqOutcome where
  | limited (err : LimitErrorBody)
  | ok
deriving DecidableEq

/-- `POST /api/ai/respond` (`server/index.ts:277-305`) restricted to its
ledger effects: the `checkAILimit("aiRespond")` middleware runs at check time
`tCheck`; the handler then awaits the AI provider and finally calls
`usage.incrementAiRespond(user.id)` at increment time `tInc`.  Each of the
two `getCurrentMonth()` calls reads the clock of its own step. -/
def aiRespondRequest (user : UserRow) (db : Db) (tCheck tInc : Nat) (off : Int) :
    AiReqOutcome × Db :=
  match checkAILimit .aiRespond user db tCheck off with
  | .denied _ e db2 => (.limited e, db2)
  | .next db2 => (.ok, incrementAiRespond db2 user.id tInc off)

/-! ## Chat bridge (`server/telegram.ts`, multi-user revision) -/

/-- `findOrCreateClient` (`server/telegram.ts:29-46` of the multi-user
revision): match an existing client of the user by case-insensitive name; at
the plan ceiling it throws `new Error("Client limit reached (...)")`, which
we model as `Except.error`.  The source reads `users.findById(userId)!`; a
missing user is modelled as an error as well (the non-null assertion would
fault there). -/
def clientNamePred (normalized : String) (c : ClientRow) : Bool :=
  strLower c.name == normalized

def findOrCreateClient (db : Db) (uid : Nat) (name : String) :
    Except String ((ClientRow × Bool) × Db) :=
  match (clientsFindByUser db uid).find? (clientNamePred (strTrim (strLower name))) with
  | some c => .ok ((c, false), db)
  | none =>
    match usersFindById db uid with
    | none => .error "user not found"
    | some user =>
      match (PLAN_LIMITS user.plan).clients with
      | some lim =>
        if (clientsFindByUser db uid).length ≥ lim then
          .error ("Client limit reached (" ++ toString lim ++ " clients on "
            ++ user.plan.str ++ " plan).")
        else
          .ok (((clientsFindById (clientsCreate db uid (strTrim name) "").2
                  (clientsCreate db uid (strTrim name) "").1).getD
                ⟨(clientsCreate db uid (strTrim name) "").1, uid, strTrim name, ""⟩, true),
               (clientsCreate db uid (strTrim name) "").2)
      | none =>
        .ok (((clientsFindById (clientsCreate db uid (strTrim name) "").2
                (clientsCreate db uid (strTrim name) "").1).getD
              ⟨(clientsCreate db uid (strTrim name) "").1, uid, strTrim name, ""⟩, true),
             (clientsCreate db uid (strTrim name) "").2)

/-- Reply sent back over the chat channel. -/
inductive BridgeReply where
  | created (name : String)
  | logged (name : String)
  | failed (msg : String)
deriving DecidableEq

/-- The `@ClientName: message` handler (`server/telegram.ts:128-159` of the
multi-user revision), after the user is resolved and the text parsed: it
calls `findOrCreateClient` inside `try`/`catch`; a thrown limit error is
caught and surfaced as a plain chat reply, never a fault; on success the
message is logged. -/
def handleClientMessage (db : Db) (uid : Nat) (rawName text : String) : BridgeReply × Db :=
  match findOrCreateClient db uid (strTrim rawName) with
  | .error e => (.failed e, db)
  | .ok ((c, isNew), db2) =>
    let db3 := messagesCreate db2 c.id .client (strTrim text)
    (if isNew then (.created c.name, db3) else (.logged c.name, db3))

/-- The `/start <token>` redemption branch (`server/telegram.ts:111-125` of
the multi-user revision): `telegramLinkTokens.findByToken`, and on success a
`db.transaction` of `markUsed` + `users.setTelegramChat`, replying with the
bound account.  The whole handler is one synchronous block on the Node event
loop (better-sqlite3 is synchronous and the handler contains no `await`), so
an invocation is one atomic step; concurrent redemption attempts execute in
sequence. -/
def redeemStart (db : Db) (tok : String) (chatId : Int) (username : String) (now : Nat) :
    Option Nat × Db :=
  match tltFindByToken db tok now with
  | none => (none, db)
  | some r =>
    let db2 := usersSetTelegramChat (tltMarkUsed db tok) r.user_id chatId username
    (some r.user_id, db2)

/-- `POST /api/telegram/connect` (migration plan Task 3 step 5): issue a
token with expiry `Date.now() + 15 * 60 * 1000`, i.e. fifteen minutes. -/
def telegramConnect (db : Db) (uid : Nat) (tok : String) (now : Nat) : Db :=
  tltCreate db uid tok (now + 15) now

/-! ## Forgot-password endpoint (`server/auth.ts:298-346`) -/

/-- Response body as far as the claims observe it. -/
inductive AuthBody where
  | successTrue
  | errorBody (msg : String)
deriving DecidableEq

structure HttpResponse where
  status : Nat
  body : AuthBody
deriving DecidableEq

/-- `POST /api/auth/forgot-password`.  `tok` stands for the
`crypto.randomBytes(32).toString("hex")` value; the email send (or the
development `console.log`) is an external effect with no influence on the
response and is assumed not to fault, matching the non-catch path of the
source.  A missing or empty `email` field is JS-falsy and is rejected with
400 before any lookup. -/
def forgotPassword (db : Db) (email : Option String) (tok : String) (now : Nat) :
    HttpResponse × Db :=
  match email with
  | none => (⟨400, .errorBody "Email is required"⟩, db)
  | some e =>
    if e.isEmpty then (⟨400, .errorBody "Email is required"⟩, db)
    else
      match usersFindByEmail db (strLower e) with
      | none => (⟨200, .successTrue⟩, db)
      | some user =>
        let db2 := prtCreate db user.id tok (now + 60) now
        (⟨200, .successTrue⟩, db2)

/-! ## Interleaving model of the metered AI request (`server/index.ts:277-305`)

A request to `POST /api/ai/respond` is two synchronous blocks on the Node
event loop, split at `await generateResponse(...)`:

1. the `checkAILimit` middleware — read the usage count, compare against the
   ceiling (`server/limits.ts:111-133`);
2. after the provider answers — `usage.incrementAiRespond(user.id)`, a single
   atomic `UPDATE ... SET ai_respond_count = ai_respond_count + 1`
   (`server/db.ts:296-298`, `server/index.ts:299`).

Two racing requests from the same account interleave these blocks in any
order.  The model tracks the shared `ai_respond_count` of the one
(account, month) row both requests address. -/

inductive ReqPhase where
  | pending
  | checked (allowed : Bool)
  | finished (allowed : Bool)
deriving DecidableEq

structure RaceState where
  count : Nat
  r1 : ReqPhase
  r2 : ReqPhase
deriving DecidableEq

/-- One atomic event-loop block of a request. -/
def reqStep (lim : Nat) (ph : ReqPhase) (count : Nat) : ReqPhase × Nat :=
  match ph with
  | .pending => (.checked (decide (count < lim)), count)
  | .checked true => (.finished true, count + 1)
  | .checked false => (.finished false, count)
  | .finished b => (.finished b, count)

/-- Run one block of request 1 (`true`) or request 2 (`false`). -/
def raceStep (lim : Nat) (who : Bool) (s : RaceState) : RaceState :=
  if who then
    let p := reqStep lim s.r1 s.count
    { s with r1 := p.1, count := p.2 }
  else
    let p := reqStep lim s.r2 s.count
    { s with r2 := p.1, count := p.2 }

/-- Run a schedule of event-loop blocks. -/
def raceRun (lim : Nat) (sched : List Bool) (s : RaceState) : RaceState :=
  sched.foldl (fun st w => raceStep lim w st) s

/-- Modelled from the spec: `checkAndConsume` of section 4.1 — the check and
the increment in one atomic step.  The reference the interleaved code model
is compared against. -/
def checkAndConsumeAtomic (lim count : Nat) : Bool × Nat :=
  if count < lim then (true, count + 1) else (false, count)

/-- Number of requests that finished allowed (each performed its increment). -/
def allowedFinished : ReqPhase → Nat
  | .finished true => 1
  | _ => 0

def doneAllowedCount (s : RaceState) : Nat :=
  allowedFinished s.r1 + allowedFinished s.r2

/-! ## Concrete fixtures for witnesses and counterexamples -/

/-- 2026-01-01T00:00 UTC, in minutes since the epoch. -/
def tJan : Nat := daysFromCivil 2026 1 1 * 1440

/-- 2025-12-31T23:59 UTC. -/
def tDecEnd : Nat := tJan - 1

def userC1 : UserRow := mkUser 1 "ada@example.com" .free

/-- Free-tier account at both ceilings: 20 AI responses consumed in 2026-01
and 5 clients. -/
def dbC1 : Db :=
  { emptyDb with
    users := [userC1]
    clients := [⟨1, 1, "a", ""⟩, ⟨2, 1, "b", ""⟩, ⟨3, 1, "c", ""⟩,
                ⟨4, 1, "d", ""⟩, ⟨5, 1, "e", ""⟩]
    usage := [⟨1, "2026-01", 20, 0, 0⟩] }

/-- One unused telegram link token, expiring at instant 100. -/
def dbC3 : Db :=
  { emptyDb with
    users := [mkUser 7 "greta@example.com" .free]
    telegram_link_tokens := [⟨1, 7, "tok1", 100, 0⟩] }

/-- One unused telegram link token whose expiry instant is exactly 100. -/
def dbC4 : Db :=
  { emptyDb with
    users := [mkUser 7 "hugo@example.com" .free]
    telegram_link_tokens := [⟨1, 7, "tokx", 100, 0⟩] }

def userC6 : UserRow := mkUser 3 "eve@example.com" .free

def dbC6 : Db := { emptyDb with users := [userC6] }

/-- Two accounts with clients, messages, saved responses, usage rows and
tokens, to exercise the cascade delete. -/
def dbC7 : Db :=
  { users := [mkUser 1 "ada@example.com" .free, mkUser 2 "bob@example.com" .paid]
    saved_responses := [⟨1, 1, "", "hi", "Hello"⟩, ⟨2, 2, "", "yo", "Yo"⟩]
    clients := [⟨1, 1, "Anna", ""⟩, ⟨2, 2, "Ben", ""⟩, ⟨3, 1, "Cleo", ""⟩]
    messages := [⟨1, 1, .client, "hi"⟩, ⟨2, 2, .me, "yo"⟩, ⟨3, 3, .client, "hey"⟩]
    usage := [⟨1, "2026-01", 4, 0, 0⟩, ⟨2, "2026-01", 1, 1, 0⟩]
    password_reset_tokens := [⟨1, 1, "prt1", 500, 0⟩]
    telegram_link_tokens := [⟨1, 2, "tlt1", 500, 0⟩] }

def userC8 : UserRow := mkUser 9 "ida@example.com" .free

/-- Free-tier account already holding its ceiling of 5 clients. -/
def dbC8 : Db :=
  { emptyDb with
    users := [userC8]
    clients := [⟨1, 9, "a", ""⟩, ⟨2, 9, "b", ""⟩, ⟨3, 9, "c", ""⟩,
                ⟨4, 9, "d", ""⟩, ⟨5, 9, "e", ""⟩] }

def userC9 : UserRow := mkUser 4 "mia@example.com" .free

def dbC9 : Db := { emptyDb with users := [userC9] }

/-- Account 4 already owns a client named Anna. -/
def dbC9b : Db :=
  { emptyDb with users := [userC9], clients := [⟨1, 4, "Anna", ""⟩] }

/-- A database where ada@example.com is registered. -/
def dbC10reg : Db := { emptyDb with users := [mkUser 1 "ada@example.com" .free] }

/-- A database where no account exists at all. -/
def dbC10unreg : Db := emptyDb

/-! ## Helper lemmas -/

theorem raceStep_count_inv (lim c0 : Nat) (w : Bool) (s : RaceState)
    (h : s.count = c0 + doneAllowedCount s) :
    (raceStep lim w s).count = c0 + doneAllowedCount (raceStep lim w s) := by
  rcases s with ⟨c, r1, r2⟩
  cases w <;>
    [rcases r2 with _ | b | b; rcases r1 with _ | b | b] <;>
    first
    | (simp [raceStep, reqStep, doneAllowedCount, allowedFinished] at h ⊢; omega)
    | (cases b <;> simp [raceStep, reqStep, doneAllowedCount, allowedFinished] at h ⊢ <;> omega)

theorem raceRun_count_inv (lim c0 : Nat) (sched : List Bool) :
    ∀ s : RaceState, s.count = c0 + doneAllowedCount s →
      (raceRun lim sched s).count = c0 + doneAllowedCount (raceRun lim sched s) := by
  induction sched with
  | nil => intro s h; simpa [raceRun] using h
  | cons w ws ih =>
    intro s h
    have hstep : raceRun lim (w :: ws) s = raceRun lim ws (raceStep lim w s) := by
      simp [raceRun]
    rw [hstep]
    exact ih _ (raceStep_count_inv lim c0 w s h)

theorem find_tokenPred_markUsed (db : Db) (tok : String) :
    (tltMarkUsed db tok).telegram_link_tokens.find? (tokenPred tok) = none := by
  rw [List.find?_eq_none]
  intro x hx
  simp only [tltMarkUsed] at hx
  rcases List.mem_map.1 hx with ⟨r, hr, rfl⟩
  by_cases hb : r.token == tok
  · simp [tokenPred, hb]
  · simp [tokenPred, hb]

/-! ## Claim theorems -/

/-- C1.  For every account and metered operation with a finite plan ceiling,
a consumed count at or above the ceiling makes the limit middleware return
the 429 `limit_exceeded` denial instead of passing control to the handler
(`MwResult.denied`, never `MwResult.next`), and the denial body carries
`current` equal to the consumed count and `limit` equal to the plan table
ceiling; likewise client creation checked against the client count. -/
theorem c1_limit_denied_at_ceiling (ty : AIOp) (user : UserRow) (db : Db)
    (t : Nat) (off : Int) :
    (∀ L, aiLimitOf (PLAN_LIMITS user.plan) ty = some L →
      usageCountOf (usageGet db user.id t off).1 ty ≥ L →
      checkAILimit ty user db t off =
        .denied 429
          (limitError (LimitType.ofAIOp ty)
            (usageCountOf (usageGet db user.id t off).1 ty) L t off)
          (usageGet db user.id t off).2)
    ∧ (∀ Lc, (PLAN_LIMITS user.plan).clients = some Lc →
        countByUser db user.id ≥ Lc →
        checkClientLimit user db t off =
          .denied 429 (limitError .clients (countByUser db user.id) Lc t off) db) := by
  constructor
  · intro L hL hge
    simp [checkAILimit, hL, hge]
  · intro Lc hLc hge
    simp [checkClientLimit, hLc, hge]

/-- C1 witness: the free tier has aiRespond ceiling 20; with 20 consumed in
the current month the check is denied with current = 20, limit = 20, and
with 5 clients present client creation is denied with current = 5,
limit = 5. -/
theorem c1_witness :
    checkAILimit .aiRespond userC1 dbC1 tJan 0 =
      .denied 429 (limitError .aiRespond 20 20 tJan 0) (usageGet dbC1 1 tJan 0).2
    ∧ checkClientLimit userC1 dbC1 tJan 0 =
      .denied 429 (limitError .clients 5 5 tJan 0) dbC1 := by
  constructor
  · have h := (c1_limit_denied_at_ceiling .aiRespond userC1 dbC1 tJan 0).1 20
      (by decide) (by decide)
    have hcur : usageCountOf (usageGet dbC1 userC1.id tJan 0).1 .aiRespond = 20 := by
      decide
    rw [h]
    have hid : userC1.id = 1 := by decide
    rw [hcur, hid]
    rfl
  · have h := (c1_limit_denied_at_ceiling .aiRespond userC1 dbC1 tJan 0).2 5
      (by decide) (by decide)
    have hcur : countByUser dbC1 userC1.id = 5 := by decide
    rw [h, hcur]

/-- C2 counterexample.  The claim says the check and the increment happen in
one atomic step, so two racing requests can never both be allowed once the
counter reaches `limit - 1`.  In the code the check (middleware) and the
increment (after the awaited provider call) are separate statements: the
schedule check₁, check₂, inc₁, inc₂ from count 19 with ceiling 20 lets both
requests finish allowed and drives the counter to 21, an outcome impossible
for any serialisation of the atomic `checkAndConsume` of the spec, under
which the second request is denied and the counter stays at 20. -/
theorem c2_counterexample :
    raceRun 20 [true, false, true, false] ⟨19, .pending, .pending⟩ =
      ⟨21, .finished true, .finished true⟩
    ∧ checkAndConsumeAtomic 20 19 = (true, 20)
    ∧ checkAndConsumeAtomic 20 (checkAndConsumeAtomic 20 19).2 = (false, 20) := by
  decide

/-- C2 amended.  The increment is a single atomic
`UPDATE ... SET ai_respond_count = ai_respond_count + 1`, executed as a
separate statement after the check (with the awaited AI call between), so no
increment is ever lost — after any interleaving of the two requests the
shared counter equals its initial value plus the number of requests that
finished allowed — but the check-and-increment pair is not atomic and both
racing requests may be allowed below the ceiling. -/
theorem c2_increment_never_lost (lim c0 : Nat) (sched : List Bool) :
    (raceRun lim sched ⟨c0, .pending, .pending⟩).count =
      c0 + doneAllowedCount (raceRun lim sched ⟨c0, .pending, .pending⟩) := by
  exact raceRun_count_inv lim c0 sched ⟨c0, .pending, .pending⟩
    (by simp [doneAllowedCount, allowedFinished])

/-- C10.  The forgot-password endpoint returns status 200 with body
`{"success": true}` whenever a non-empty email is submitted, regardless of
whether an account with that email exists, so two runs that differ only in
the database contents produce identical HTTP responses (token generation and
the email send are modelled as non-faulting, matching the non-exceptional
path of the source). -/
theorem c10_forgot_password_uniform (db1 db2 : Db) (e tok1 tok2 : String)
    (now1 now2 : Nat) (he : e.isEmpty = false) :
    (forgotPassword db1 (some e) tok1 now1).1 = ⟨200, .successTrue⟩
    ∧ (forgotPassword db1 (some e) tok1 now1).1 =
        (forgotPassword db2 (some e) tok2 now2).1 := by
  have h1 : (forgotPassword db1 (some e) tok1 now1).1 = ⟨200, .successTrue⟩ := by
    simp only [forgotPassword, he, Bool.false_eq_true, if_false]
    cases usersFindByEmail db1 (strLower e) <;> rfl
  have h2 : (forgotPassword db2 (some e) tok2 now2).1 = ⟨200, .successTrue⟩ := by
    simp only [forgotPassword, he, Bool.false_eq_true, if_false]
    cases usersFindByEmail db2 (strLower e) <;> rfl
  exact ⟨h1, h1.trans h2.symm⟩

/-- C10 witness: with the same submitted email, a database where the account
exists and one where it does not produce the same 200 success response. -/
theorem c10_witness :
    (forgotPassword dbC10reg (some "Ada@Example.com") "tk" 0).1 = ⟨200, .successTrue⟩
    ∧ (forgotPassword dbC10reg (some "Ada@Example.com") "tk" 0).1 =
        (forgotPassword dbC10unreg (some "Ada@Example.com") "tk2" 99).1 :=
  c10_forgot_password_uniform dbC10reg dbC10unreg "Ada@Example.com" "tk" "tk2" 0 99
    (by decide)

/-- C3.  A redeemed link token can never be redeemed again: whenever a
`/start <token>` redemption succeeds, any later redemption of the same token
on the resulting state returns Invalid (the `/start` handler is one
synchronous event-loop block, so two concurrent attempts execute in sequence
and this covers both orders — at most one succeeds); moreover an invalid
redemption stays invalid at every later instant on an unchanged state, and a
failed redemption does not change the state, so `Redeemed` and `Expired` are
terminal. -/
theorem c3_token_single_use (db : Db) (tok : String) (ch1 ch2 : Int)
    (u1 u2 : String) (n1 n2 : Nat) :
    ((redeemStart db tok ch1 u1 n1).1.isSome →
      (redeemStart (redeemStart db tok ch1 u1 n1).2 tok ch2 u2 n2).1 = none)
    ∧ (n1 ≤ n2 → (redeemStart db tok ch1 u1 n1).1 = none →
        (redeemStart db tok ch2 u2 n2).1 = none)
    ∧ ((redeemStart db tok ch1 u1 n1).1 = none →
        (redeemStart db tok ch1 u1 n1).2 = db) := by
  refine ⟨?_, ?_, ?_⟩
  · intro hs
    cases h : tltFindByToken db tok n1 with
    | none => simp [redeemStart, h] at hs
    | some r =>
      have h2 : (redeemStart db tok ch1 u1 n1).2 =
          usersSetTelegramChat (tltMarkUsed db tok) r.user_id ch1 u1 := by
        simp [redeemStart, h]
      rw [h2]
      have h3 : (usersSetTelegramChat (tltMarkUsed db tok) r.user_id ch1 u1).telegram_link_tokens
          = (tltMarkUsed db tok).telegram_link_tokens := rfl
      simp [redeemStart, tltFindByToken, h3, find_tokenPred_markUsed db tok]
  · intro hle hn
    cases hf : db.telegram_link_tokens.find? (tokenPred tok) with
    | none => simp [redeemStart, tltFindByToken, hf]
    | some r =>
      by_cases hlt : r.expires_at < n1
      · have hlt2 : r.expires_at < n2 := lt_of_lt_of_le hlt hle
        simp [redeemStart, tltFindByToken, hf, hlt2]
      · simp [redeemStart, tltFindByToken, hf, hlt] at hn
  · intro hn
    cases h : tltFindByToken db tok n1 with
    | some r => simp [redeemStart, h] at hn
    | none => simp [redeemStart, h]

/-- C3 witness: a concrete valid token is redeemed once (binding account 7);
the immediate second attempt, the same attempt on an unchanged state at a
later time after a failure, and the stutter property are all exercised. -/
theorem c3_witness :
    (redeemStart dbC3 "tok1" 5 "al" 50).1 = some 7
    ∧ (redeemStart (redeemStart dbC3 "tok1" 5 "al" 50).2 "tok1" 6 "bo" 60).1 = none
    ∧ (redeemStart dbC3 "nope" 6 "bo" 60).1 = none := by
  refine ⟨by decide, ?_, ?_⟩
  · exact (c3_token_single_use dbC3 "tok1" 5 6 "al" "bo" 50 60).1 (by decide)
  · exact (c3_token_single_use dbC3 "nope" 6 6 "bo" "bo" 50 60).2.1 (by decide) (by decide)

/-- C4 counterexample.  The claim requires Invalid for every lookup time at
or past the expiry instant, but `findByToken` tests strict
`new Date(expires_at) < new Date()`: a token whose expiry instant is exactly
the lookup time (here both 100) is still accepted and resolves to its bound
account. -/
theorem c4_counterexample :
    (redeemStart dbC4 "tokx" 5 "al" 100).1 = some 7
    ∧ ¬ (100 : Nat) < 100 := by
  exact ⟨by decide, by decide⟩

/-- C4 amended.  Redemption resolves the bound account only if the token
exists with `used = 0` and its expiry is at or after the lookup time; for
every lookup time strictly past the expiry instant redemption returns
Invalid regardless of the `used` flag, and a token issued at T (expiry
T + 15 minutes) is Invalid when redeemed at T + 16 minutes. -/
theorem c4_redeem_validity (db : Db) (tok : String) (ch : Int) (u : String)
    (now : Nat) :
    ((∀ r ∈ db.telegram_link_tokens, r.token = tok → r.expires_at < now) →
      redeemStart db tok ch u now = (none, db))
    ∧ (∀ r, tltFindByToken db tok now = some r →
        r.token = tok ∧ r.used = 0 ∧ now ≤ r.expires_at ∧
        (redeemStart db tok ch u now).1 = some r.user_id)
    ∧ (∀ (uid T : Nat) (tok2 : String),
        (∀ r ∈ db.telegram_link_tokens, r.token ≠ tok2) →
        (redeemStart (telegramConnect db uid tok2 T) tok2 ch u (T + 16)).1 = none) := by
  refine ⟨?_, ?_, ?_⟩
  · intro hall
    cases hf : db.telegram_link_tokens.find? (tokenPred tok) with
    | none => simp [redeemStart, tltFindByToken, hf]
    | some r =>
      have hm := List.mem_of_find?_eq_some hf
      have hp := List.find?_some hf
      simp [tokenPred] at hp
      have hlt : r.expires_at < now := hall r hm hp.1
      simp [redeemStart, tltFindByToken, hf, hlt]
  · intro r hr
    unfold tltFindByToken at hr
    cases hf : db.telegram_link_tokens.find? (tokenPred tok) with
    | none => rw [hf] at hr; exact absurd hr (by simp)
    | some r0 =>
      rw [hf] at hr
      have hr2 : (if r0.expires_at < now then none else some r0) = some r := hr
      by_cases hlt : r0.expires_at < now
      · rw [if_pos hlt] at hr2; exact absurd hr2 (by simp)
      · rw [if_neg hlt] at hr2
        have hrr : r0 = r := by injection hr2
        subst hrr
        have hp := List.find?_some hf
        simp [tokenPred] at hp
        refine ⟨hp.1, hp.2, Nat.le_of_not_lt hlt, ?_⟩
        have hfind : tltFindByToken db tok now = some r0 := by
          unfold tltFindByToken
          rw [hf]
          show (if r0.expires_at < now then none else some r0) = some r0
          rw [if_neg hlt]
        simp [redeemStart, hfind]
  · intro uid T tok2 hall
    have hgc : (gcTokens db.telegram_link_tokens T).find? (tokenPred tok2) = none := by
      rw [List.find?_eq_none]
      intro x hx
      have hx2 : x ∈ db.telegram_link_tokens := (List.mem_filter.1 hx).1
      simp [tokenPred, hall x hx2]
    have hrow : tokenPred tok2
        ⟨nextTokenId (gcTokens db.telegram_link_tokens T), uid, tok2, T + 15, 0⟩ = true := by
      simp [tokenPred]
    have hfind : (telegramConnect db uid tok2 T).telegram_link_tokens.find? (tokenPred tok2)
        = some ⟨nextTokenId (gcTokens db.telegram_link_tokens T), uid, tok2, T + 15, 0⟩ := by
      simp only [telegramConnect, tltCreate]
      rw [List.find?_append, hgc]
      simp [hrow]
    have hexp : (T : Nat) + 15 < T + 16 := by omega
    simp [redeemStart, tltFindByToken, hfind, hexp]

/-- C4 witness: the token of `dbC4` (expiry instant 100) is Invalid at
lookup time 101, and a token issued at T = 200 is Invalid at 216. -/
theorem c4_witness :
    redeemStart dbC4 "tokx" 5 "al" 101 = (none, dbC4)
    ∧ (redeemStart (telegramConnect dbC3 7 "fresh" 200) "fresh" 5 "al" 216).1 = none := by
  refine ⟨?_, ?_⟩
  · exact (c4_redeem_validity dbC4 "tokx" 5 "al" 101).1 (by decide)
  · exact (c4_redeem_validity dbC3 "fresh" 5 "al" 0).2.2 7 200 "fresh" (by decide)

/-- C5 counterexample.  The claim says the usage month key is the UTC
year-month independent of the host timezone, and the reset instant the first
instant of the next UTC month.  `getCurrentMonth` reads `getFullYear` /
`getMonth`, which are host-local: at the instant 2026-01-01T00:00 UTC on a
host one hour west of UTC (offset -60) the key is "2025-12", not the UTC
"2026-01", and the reset instant differs from the first instant of the next
UTC month as well. -/
theorem c5_counterexample :
    getCurrentMonth (daysFromCivil 2026 1 1 * 1440) (-60) = "2025-12"
    ∧ getCurrentMonthUTCspec (daysFromCivil 2026 1 1 * 1440) = "2026-01"
    ∧ getCurrentMonth (daysFromCivil 2026 1 1 * 1440) (-60)
        ≠ getCurrentMonthUTCspec (daysFromCivil 2026 1 1 * 1440)
    ∧ getNextMonthStart (daysFromCivil 2026 1 1 * 1440) (-60)
        ≠ getNextMonthStartUTCspec (daysFromCivil 2026 1 1 * 1440) := by
  refine ⟨by decide, by decide, by decide, by decide⟩

/-- C5 amended.  The month key is the host-local year-month of the call
instant and the reset instant is the first instant of the next host-local
calendar month (serialised in UTC); both coincide with the claimed UTC
behaviour exactly when the host timezone offset is zero. -/
theorem c5_local_month_key (t : Nat) :
    getCurrentMonth t 0 = getCurrentMonthUTCspec t
    ∧ getNextMonthStart t 0 = getNextMonthStartUTCspec t := by
  have h : localMinutes t 0 = t := by simp [localMinutes]
  constructor
  · simp [getCurrentMonth, getCurrentMonthUTCspec, h]
  · simp [getNextMonthStart, getNextMonthStartUTCspec, h]

theorem usagePred_if_bump (uid : Nat) (m m2 : String) (r : UsageRow) :
    usagePred uid m2
      (if usagePred uid m r then
        { r with ai_respond_count := r.ai_respond_count + 1 } else r)
      = usagePred uid m2 r := by
  by_cases h : usagePred uid m r = true
  · rw [if_pos h]
    simp [usagePred]
  · rw [if_neg h]

theorem find?_bump (uid : Nat) (m m2 : String) (l : List UsageRow) :
    (l.map (fun r => if usagePred uid m r then
        { r with ai_respond_count := r.ai_respond_count + 1 } else r)).find?
        (usagePred uid m2)
      = (l.find? (usagePred uid m2)).map (fun r => if usagePred uid m r then
        { r with ai_respond_count := r.ai_respond_count + 1 } else r) := by
  rw [List.find?_map]
  have hc : (usagePred uid m2) ∘ (fun r => if usagePred uid m r then
      { r with ai_respond_count := r.ai_respond_count + 1 } else r) = usagePred uid m2 := by
    funext r
    exact usagePred_if_bump uid m m2 r
  rw [hc]

theorem usageFindRow_upsert_self (db : Db) (uid : Nat) (m : String) :
    ∃ r, usageFindRow (upsertUsage db uid m) uid m = some r
      ∧ r.ai_respond_count = aiRespondCountOf db uid m
      ∧ usagePred uid m r = true := by
  unfold upsertUsage
  cases h : usageFindRow db uid m with
  | some r =>
    refine ⟨r, h, ?_, List.find?_some h⟩
    unfold aiRespondCountOf
    rw [h]
    rfl
  | none =>
    refine ⟨⟨uid, m, 0, 0, 0⟩, ?_, ?_, by simp [usagePred]⟩
    · unfold usageFindRow at h ⊢
      rw [List.find?_append, h]
      simp [usagePred]
    · unfold aiRespondCountOf
      rw [h]
      rfl

theorem usageFindRow_upsert_ne (db : Db) (uid : Nat) (m m2 : String) (h : m2 ≠ m) :
    usageFindRow (upsertUsage db uid m) uid m2 = usageFindRow db uid m2 := by
  unfold upsertUsage
  cases hf : usageFindRow db uid m with
  | some r => rfl
  | none =>
    unfold usageFindRow
    rw [List.find?_append]
    have hz : usagePred uid m2 ⟨uid, m, 0, 0, 0⟩ = false := by
      simp [usagePred]
      exact fun hh => absurd hh.symm h
    rw [List.find?_cons_of_neg _ (by simp [hz])]
    simp

theorem usageFindRow_increment (db : Db) (uid : Nat) (t : Nat) (off : Int)
    (m2 : String) :
    usageFindRow (incrementAiRespond db uid t off) uid m2 =
      (usageFindRow (upsertUsage db uid (getCurrentMonth t off)) uid m2).map
        (fun r => if usagePred uid (getCurrentMonth t off) r then
          { r with ai_respond_count := r.ai_respond_count + 1 } else r) := by
  unfold incrementAiRespond
  unfold usageFindRow
  exact find?_bump uid (getCurrentMonth t off) m2 _

theorem aiRespondCountOf_increment (db : Db) (uid : Nat) (t : Nat) (off : Int)
    (m2 : String) :
    aiRespondCountOf (incrementAiRespond db uid t off) uid m2 =
      if m2 = getCurrentMonth t off then aiRespondCountOf db uid m2 + 1
      else aiRespondCountOf db uid m2 := by
  by_cases h : m2 = getCurrentMonth t off
  · rw [if_pos h]
    obtain ⟨r, hr, hc, hp⟩ := usageFindRow_upsert_self db uid (getCurrentMonth t off)
    unfold aiRespondCountOf
    rw [usageFindRow_increment, h, hr]
    simp [hp]
    rw [hc]
    unfold aiRespondCountOf
    rfl
  · rw [if_neg h]
    have hne := usageFindRow_upsert_ne db uid (getCurrentMonth t off) m2 h
    unfold aiRespondCountOf
    rw [usageFindRow_increment, hne]
    unfold usageFindRow
    cases hf : db.usage.find? (usagePred uid m2) with
    | none => simp
    | some r =>
      have hp2 := List.find?_some hf
      simp [usagePred] at hp2
      have hnp : usagePred uid (getCurrentMonth t off) r = false := by
        simp [usagePred]
        intro _
        exact fun hh => h (hp2.2 ▸ hh)
      simp [hnp]

/-- C6 counterexample.  The claim says the month key is computed once per
request, so check and increment always address the same (account, month)
row.  Each ledger call recomputes the key from the clock: a request whose
check runs in the last minute of 2025-12 and whose increment (after the
awaited AI call) runs in the first minute of 2026-01 reads the 2025-12 row
but increments the 2026-01 row, whose record thus receives an increment from
a request issued while the current month was its predecessor. -/
theorem c6_counterexample :
    getCurrentMonth tDecEnd 0 = "2025-12"
    ∧ getCurrentMonth tJan 0 = "2026-01"
    ∧ (aiRespondRequest userC6 dbC6 tDecEnd tJan 0).1 = .ok
    ∧ (aiRespondRequest userC6 dbC6 tDecEnd tJan 0).2.usage =
        [⟨3, "2025-12", 0, 0, 0⟩, ⟨3, "2026-01", 1, 0, 0⟩] := by
  refine ⟨by decide, by decide, by decide, by decide⟩

/-- C6 amended.  The month key is recomputed from the wall clock at each
ledger call (once in the check, once in the increment).  When both calls of
a request fall in the same month the increment addresses exactly the row the
check read, adding one to it; when the wall clock crosses a month boundary
between them, the checked row is left untouched and the increment lands in
the row of the new month. -/
theorem c6_month_key_per_call (db : Db) (uid : Nat) (tC tI : Nat) (off : Int) :
    (getCurrentMonth tC off = getCurrentMonth tI off →
      aiRespondCountOf (incrementAiRespond db uid tI off) uid (getCurrentMonth tC off) =
        aiRespondCountOf db uid (getCurrentMonth tC off) + 1)
    ∧ (getCurrentMonth tC off ≠ getCurrentMonth tI off →
      aiRespondCountOf (incrementAiRespond db uid tI off) uid (getCurrentMonth tC off) =
        aiRespondCountOf db uid (getCurrentMonth tC off)) := by
  constructor
  · intro h
    rw [aiRespondCountOf_increment, if_pos h]
  · intro h
    rw [aiRespondCountOf_increment, if_neg h]

/-- C6 witness: two instants ten minutes apart inside 2026-01 address the
same usage row, and the cross-boundary pair leaves the checked 2025-12 row
untouched. -/
theorem c6_witness :
    aiRespondCountOf (incrementAiRespond dbC6 3 (tJan + 10) 0) 3 (getCurrentMonth tJan 0)
      = aiRespondCountOf dbC6 3 (getCurrentMonth tJan 0) + 1
    ∧ aiRespondCountOf (incrementAiRespond dbC6 3 tJan 0) 3 (getCurrentMonth tDecEnd 0)
      = aiRespondCountOf dbC6 3 (getCurrentMonth tDecEnd 0) := by
  constructor
  · exact (c6_month_key_per_call dbC6 3 tJan (tJan + 10) 0).1 (by decide)
  · exact (c6_month_key_per_call dbC6 3 tDecEnd tJan 0).2 (by decide)

/-- C7.  Deleting a user row cascades to everything it owns: afterwards no
user, saved response, client, usage row, password-reset token or telegram
link token of that account remains, and no message of any client the
account owned remains (rows referencing the account through a deleted
client are gone as well). -/
theorem c7_cascade_delete (db : Db) (uid : Nat) :
    (∀ u ∈ (deleteUserCascade db uid).users, u.id ≠ uid)
    ∧ (∀ s ∈ (deleteUserCascade db uid).saved_responses, s.user_id ≠ uid)
    ∧ (∀ c ∈ (deleteUserCascade db uid).clients, c.user_id ≠ uid)
    ∧ (∀ r ∈ (deleteUserCascade db uid).usage, r.user_id ≠ uid)
    ∧ (∀ r ∈ (deleteUserCascade db uid).password_reset_tokens, r.user_id ≠ uid)
    ∧ (∀ r ∈ (deleteUserCascade db uid).telegram_link_tokens, r.user_id ≠ uid)
    ∧ (∀ mr ∈ (deleteUserCascade db uid).messages, ∀ c ∈ db.clients,
        c.user_id = uid → mr.client_id ≠ c.id) := by
  refine ⟨?_, ?_, ?_, ?_, ?_, ?_, ?_⟩
  · intro x hx
    simp only [deleteUserCascade, List.mem_filter, bne_iff_ne] at hx
    exact hx.2
  · intro x hx
    simp only [deleteUserCascade, List.mem_filter, bne_iff_ne] at hx
    exact hx.2
  · intro x hx
    simp only [deleteUserCascade, List.mem_filter, bne_iff_ne] at hx
    exact hx.2
  · intro x hx
    simp only [deleteUserCascade, List.mem_filter, bne_iff_ne] at hx
    exact hx.2
  · intro x hx
    simp only [deleteUserCascade, List.mem_filter, bne_iff_ne] at hx
    exact hx.2
  · intro x hx
    simp only [deleteUserCascade, List.mem_filter, bne_iff_ne] at hx
    exact hx.2
  · intro mr hm c hc hcu
    simp only [deleteUserCascade, List.mem_filter] at hm
    obtain ⟨-, h2⟩ := hm
    simp only [Bool.not_eq_eq_eq_not, Bool.not_true, List.any_eq_false] at h2
    have hcmem : c ∈ db.clients.filter (fun c => c.user_id == uid) :=
      List.mem_filter.2 ⟨hc, by simp [hcu]⟩
    have := h2 c hcmem
    simp at this
    exact fun hh => this hh.symm

/-- C7 witness: deleting account 1 from the populated `dbC7` removes its
clients Anna and Cleo, their messages, its saved response, usage row and
password-reset token, leaving only rows of account 2. -/
theorem c7_witness :
    (deleteUserCascade dbC7 1).clients = [⟨2, 2, "Ben", ""⟩]
    ∧ (deleteUserCascade dbC7 1).messages = [⟨2, 2, .me, "yo"⟩]
    ∧ (deleteUserCascade dbC7 1).usage = [⟨2, "2026-01", 1, 1, 0⟩]
    ∧ (deleteUserCascade dbC7 1).password_reset_tokens = []
    ∧ (∀ u ∈ (deleteUserCascade dbC7 1).users, u.id ≠ 1) :=
  ⟨by decide, by decide, by decide, by decide, (c7_cascade_delete dbC7 1).1⟩

/-- C8 counterexample.  The claim says no code path raises an exception to
report a limit denial, on the HTTP surface or the chat bridge.  The chat
chat bridge helper `findOrCreateClient` throws
`new Error("Client limit reached (...)")` when the account is at its client
ceiling: at the free-tier ceiling of 5 clients it reports the denial as a
thrown exception, not a structured limit_exceeded value. -/
theorem c8_counterexample :
    findOrCreateClient dbC8 9 "Zoe" =
      .error "Client limit reached (5 clients on free plan)." := by
  decide

/-- C8 amended.  On the HTTP surface a limit denial is a structured 429
`limit_exceeded` response returned by the middleware, never a thrown fault;
on the chat bridge `findOrCreateClient` reports the client-limit denial by
throwing an `Error`, which the message handler catches and surfaces as a
plain chat reply with the database unchanged — non-fatal, but an exception
internally rather than a structured `limit_exceeded` value with `current`,
`limit` and `resetDate`. -/
theorem c8_limit_surfacing (user : UserRow) (db : Db) (t : Nat) (off : Int)
    (uid : Nat) (nm txt : String) :
    (∀ Lc, (PLAN_LIMITS user.plan).clients = some Lc →
        countByUser db user.id ≥ Lc →
        checkClientLimit user db t off =
          .denied 429 (limitError .clients (countByUser db user.id) Lc t off) db)
    ∧ (∀ usr lim, usersFindById db uid = some usr →
        (PLAN_LIMITS usr.plan).clients = some lim →
        (clientsFindByUser db uid).find? (clientNamePred (strTrim (strLower nm))) = none →
        (clientsFindByUser db uid).length ≥ lim →
        findOrCreateClient db uid nm =
          .error ("Client limit reached (" ++ toString lim ++ " clients on "
            ++ usr.plan.str ++ " plan)."))
    ∧ (∀ msg, findOrCreateClient db uid (strTrim nm) = .error msg →
        handleClientMessage db uid nm txt = (.failed msg, db)) := by
  refine ⟨?_, ?_, ?_⟩
  · intro Lc hLc hge
    simp [checkClientLimit, hLc, hge]
  · intro usr lim hu hl hf hge
    simp only [findOrCreateClient, hf, hu, hl]
    rw [if_pos hge]
  · intro msg h
    unfold handleClientMessage
    rw [h]

/-- C8 witness: account 9 on the free tier with 5 clients — the HTTP
middleware answers with the structured 429 denial, the bridge helper throws,
and the bridge message handler catches the throw and replies normally. -/
theorem c8_witness :
    checkClientLimit userC8 dbC8 0 0 =
      .denied 429 (limitError .clients 5 5 0 0) dbC8
    ∧ findOrCreateClient dbC8 9 "Zoe" =
        .error "Client limit reached (5 clients on free plan)."
    ∧ handleClientMessage dbC8 9 "Zoe" "hi" =
        (.failed "Client limit reached (5 clients on free plan).", dbC8) := by
  refine ⟨?_, ?_, ?_⟩
  · have h := (c8_limit_surfacing userC8 dbC8 0 0 9 "Zoe" "hi").1 5 (by decide) (by decide)
    rw [h]
    decide
  · have h := (c8_limit_surfacing userC8 dbC8 0 0 9 "Zoe" "hi").2.1 userC8 5
      (by decide) (by decide) (by decide) (by decide)
    rw [h]
    decide
  · exact (c8_limit_surfacing userC8 dbC8 0 0 9 "Zoe" "hi").2.2
      "Client limit reached (5 clients on free plan)." (by decide)

/-- C9 counterexample.  The claim says no reachable state holds two clients
of one account with names equal ignoring case, on any interface including
HTTP `POST /api/clients`.  That route only runs the count-based
`checkClientLimit` and then `clients.create`; posting "Anna" and then
"anna" for the same account yields a state with two case-insensitively
equal names. -/
theorem c9_counterexample :
    ((postClients userC9 "anna" ""
        (postClients userC9 "Anna" "" dbC9 tJan 0).2 tJan 0).2).clients =
      [⟨1, 4, "Anna", ""⟩, ⟨2, 4, "anna", ""⟩]
    ∧ strLower "Anna" = strLower "anna" := by
  refine ⟨by decide, by decide⟩

/-- C9 amended.  Only the chat bridge enforces case-insensitive matching:
`findOrCreateClient` returns an existing client of the account whose
lowercased name equals the lowercased trimmed input without modifying the
database, and creates a new client only when no such client exists; HTTP
`POST /api/clients` performs no uniqueness check, so duplicate names are
reachable over HTTP. -/
theorem c9_bridge_case_insensitive (db : Db) (uid : Nat) (nm : String) :
    (∀ c db2, findOrCreateClient db uid nm = .ok ((c, false), db2) →
        db2 = db ∧ c ∈ db.clients ∧ c.user_id = uid
          ∧ strLower c.name = strTrim (strLower nm))
    ∧ (∀ c db2, findOrCreateClient db uid nm = .ok ((c, true), db2) →
        ∀ c2 ∈ db.clients, c2.user_id = uid → strLower c2.name ≠ strTrim (strLower nm)) := by
  constructor
  · intro c db2 h
    cases hf : (clientsFindByUser db uid).find? (clientNamePred (strTrim (strLower nm))) with
    | some c0 =>
      simp only [findOrCreateClient, hf] at h
      have h3 : ((c0, false), db) = ((c, false), db2) := by injection h
      have hc0 : c0 = c := congrArg (fun p => p.1.1) h3
      have hdb : db = db2 := congrArg (fun p => p.2) h3
      subst hc0
      have hp := List.find?_some hf
      have hm := List.mem_of_find?_eq_some hf
      have hmem := List.mem_filter.1 hm
      refine ⟨hdb.symm, hmem.1, by simpa using hmem.2, by simpa [clientNamePred] using hp⟩
    | none =>
      cases hu : usersFindById db uid with
      | none =>
        simp only [findOrCreateClient, hf, hu] at h
        exact absurd h (by simp)
      | some usr =>
        cases hl : (PLAN_LIMITS usr.plan).clients with
        | none =>
          simp only [findOrCreateClient, hf, hu, hl] at h
          injection h with h3
          exact absurd (congrArg (fun p => p.1.2) h3) (by simp)
        | some lim =>
          by_cases hge : (clientsFindByUser db uid).length ≥ lim
          · simp only [findOrCreateClient, hf, hu, hl] at h
            rw [if_pos hge] at h
            exact absurd h (by simp)
          · simp only [findOrCreateClient, hf, hu, hl] at h
            rw [if_neg hge] at h
            injection h with h3
            exact absurd (congrArg (fun p => p.1.2) h3) (by simp)
  · intro c db2 h c2 hc2 hcu
    cases hf : (clientsFindByUser db uid).find? (clientNamePred (strTrim (strLower nm))) with
    | some c0 =>
      simp only [findOrCreateClient, hf] at h
      have h3 : ((c0, false), db) = ((c, true), db2) := by injection h
      have hft : false = true := congrArg (fun p => p.1.2) h3
      exact absurd hft (by simp)
    | none =>
      have hall := List.find?_eq_none.1 hf
      have hmem : c2 ∈ clientsFindByUser db uid :=
        List.mem_filter.2 ⟨hc2, by simp [hcu]⟩
      have hpred := hall c2 hmem
      simpa [clientNamePred] using hpred

/-- C9 witness: the bridge resolves the raw name " anna " to the already
existing client Anna of account 4 without creating anything. -/
theorem c9_witness :
    dbC9b = dbC9b ∧ (⟨1, 4, "Anna", ""⟩ : ClientRow) ∈ dbC9b.clients
      ∧ (⟨1, 4, "Anna", ""⟩ : ClientRow).user_id = 4
      ∧ strLower (⟨1, 4, "Anna", ""⟩ : ClientRow).name = strTrim (strLower " anna ") :=
  (c9_bridge_case_insensitive dbC9b 4 " anna ").1 ⟨1, 4, "Anna", ""⟩ dbC9b (by decide)

end PhotoMsg
